import Mathlib

/-!
Verification of the polynomial/basis-function evaluation core of FlurryPP
(src/src/polynomials.cpp), shallowly embedded in Lean 4.

Doubles are modelled as exact rationals (`ℚ`) for the closed-form rational
functions (Lagrange, Legendre, VCJH, compute_eta, eval_gamma) and as reals
(`ℝ`) for the families that take square roots or exponentials (Jacobi,
Dubiner, exponential filter).  C++ `int` becomes `ℤ`; loop counters and
truncation orders, which the claims restrict to be non-negative, become `ℕ`.
A C++ function that calls `FatalError` is embedded as an `Except String`
value whose error case carries the source's message.
-/

/-- Modelled from the spec: `FatalError` (§7) terminates evaluation with a
descriptive fatal error; the macro lives in a header not under src/.  It is
embedded as the error case of `Except`, making failure a value. -/
def FatalError {α : Type} (msg : String) : Except String α := Except.error msg

/-! ## Lagrange family (polynomials.cpp lines 39-50) -/

/-- `Lagrange(x_lag, y, mode)`: the loop multiplies, for every index
`i ≠ mode` below `x_lag.size()`, the factor `(y-x[i])/(x[mode]-x[i])`
into an accumulator that starts at 1. -/
def Lagrange (x_lag : List ℚ) (y : ℚ) (mode : ℕ) : ℚ :=
  ∏ i in Finset.range x_lag.length,
    if i ≠ mode then (y - x_lag.getD i 0) / (x_lag.getD mode 0 - x_lag.getD i 0) else 1

/-! ## Legendre family (polynomials.cpp lines 119-151) -/

/-- The non-negative-order branch of `Legendre`: `P_0 = 1`, `P_1 = r`,
`P_n = ((2n-1)·r·P_(n-1) - (n-1)·P_(n-2))/n`, exactly the source's
three-term recursion coefficients. -/
def legP (r : ℚ) : ℕ → ℚ
  | 0 => 1
  | 1 => r
  | n + 2 =>
      ((2 * ((n : ℚ) + 2) - 1) * r * legP r (n + 1) - (((n : ℚ) + 2) - 1) * legP r n)
        / ((n : ℚ) + 2)

/-- `Legendre(in_r, in_mode)` (lines 119-129): negative mode returns 0,
otherwise the three-term recursion of `legP`. -/
def Legendre (in_r : ℚ) (in_mode : ℤ) : ℚ :=
  if in_mode < 0 then 0 else legP in_r in_mode.toNat

/-- `dLegendre(in_r, in_mode)` (lines 131-151): 0 at mode 0; the interior
formula on -1 < r < 1; closed forms at the exact endpoints r = ±1; the
accumulator `dLeg` keeps its initial value 0 for any other r. -/
def dLegendre (in_r : ℚ) (in_mode : ℤ) : ℚ :=
  if in_mode = 0 then 0
  else if -1 < in_r ∧ in_r < 1 then
    (in_mode : ℚ) * ((in_r * Legendre in_r in_mode) - Legendre in_r (in_mode - 1))
      / (in_r * in_r - 1)
  else if in_r = -1 then (-1 : ℚ) ^ (in_mode - 1) * 0.5 * (in_mode : ℚ) * ((in_mode : ℚ) + 1)
  else if in_r = 1 then 0.5 * (in_mode : ℚ) * ((in_mode : ℚ) + 1)
  else 0

/-! ## Gamma/factorial helper (polynomials.cpp lines 406-421) -/

/-- `eval_gamma(in_n)` (lines 406-421): returns 1 at n = 1; otherwise starts
from `n-1` and multiplies `(n-2-i)` for `i = 0 .. n-3` (the loop body runs
`max(n-2,0)` times, so for n ≤ 0 it returns `n-1` unchanged). -/
def eval_gamma (in_n : ℤ) : ℤ :=
  if in_n = 1 then 1
  else (List.range (in_n - 2).toNat).foldl (fun (g : ℤ) (i : ℕ) => g * (in_n - 2 - (i : ℤ)))
    (in_n - 1)

/-! ## VCJH correction-function family (polynomials.cpp lines 423-493) -/

/-- Modelled from the spec: the VCJH scheme tags DG, SD, HU, CPlus (§3, §4.8)
form an enumerated type declared in a header not under src/; DG is tag 0 per
the source's error message "Set VCJH scheme type to 0!", the rest follow in
declaration order. -/
def DG : ℤ := 0

/-- Modelled from the spec: the SD scheme tag, see `DG`. -/
def SD : ℤ := 1

/-- Modelled from the spec: the HU scheme tag, see `DG`. -/
def HU : ℤ := 2

/-- Modelled from the spec: the CPlus scheme tag, see `DG`. -/
def CPLUS : ℤ := 3

/-- Modelled from the spec: the `factorial` helper of funcs.hpp (not under
src/), the ordinary factorial used by `compute_eta`'s CPlus branch (§4.8). -/
def factorial (n : ℤ) : ℚ := (n.toNat.factorial : ℚ)

/-- `compute_eta(vcjh_scheme, order)` (lines 423-460): fatal when order 0 is
paired with a non-DG scheme; DG → 0, SD → order/(order+1), HU → (order+1)/order,
CPlus → tabulated 1D constant (orders 2-5 only, else fatal) combined with the
closed-form factorial expression; any other tag is fatal. -/
def compute_eta (vcjh_scheme : ℤ) (order : ℤ) : Except String ℚ :=
  if order = 0 ∧ vcjh_scheme ≠ DG then
    FatalError "ERROR: P=0 only compatible with DG. Set VCJH scheme type to 0!"
  else if vcjh_scheme = DG then Except.ok 0
  else if vcjh_scheme = SD then Except.ok ((order : ℚ) / ((order : ℚ) + 1))
  else if vcjh_scheme = HU then Except.ok (((order : ℚ) + 1) / (order : ℚ))
  else if vcjh_scheme = CPLUS then
    (if order = 2 then Except.ok (0.206 : ℚ)
     else if order = 3 then Except.ok (3.80e-3 : ℚ)
     else if order = 4 then Except.ok (4.67e-5 : ℚ)
     else if order = 5 then Except.ok (4.28e-7 : ℚ)
     else FatalError "C_plus scheme not implemented for this order").map
      (fun c_1d =>
        let ap : ℚ := 1 / (2 : ℚ) ^ order * factorial (2 * order)
          / (factorial order * factorial order)
        c_1d * (2 * (order : ℚ) + 1) / 2 * (factorial order * ap) * (factorial order * ap))
  else FatalError "Invalid VCJH scheme."

/-- `VCJH_1d(xi, mode, order, eta)` (lines 462-472), transcribed with the
source's exact parenthesisation: the mode 0 (left) branch divides only the
blended term by (1+eta); the mode 1 (right) branch divides the entire
bracket by (1+eta). -/
def VCJH_1d (xi : ℚ) (mode : ℤ) (order : ℤ) (eta : ℚ) : ℚ :=
  if mode = 0 then
    (-1 : ℚ) ^ order / 2 *
      (Legendre xi order - (eta * Legendre xi (order - 1) + Legendre xi (order + 1)) / (1 + eta))
  else
    0.5 * (Legendre xi order + (eta * Legendre xi (order - 1) + Legendre xi (order + 1)))
      / (1 + eta)

/-- `dVCJH_1d(in_r, in_mode, in_order, in_eta)` (lines 474-493): both modes
special-case order 0 to drop the `dLegendre(r, order-1)` term; in both
branches only the blended term is divided by (1+eta). -/
def dVCJH_1d (in_r : ℚ) (in_mode : ℤ) (in_order : ℤ) (in_eta : ℚ) : ℚ :=
  if in_mode = 0 then
    if in_order = 0 then
      0.5 * (-1 : ℚ) ^ in_order *
        (dLegendre in_r in_order - (dLegendre in_r (in_order + 1) / (1 + in_eta)))
    else
      0.5 * (-1 : ℚ) ^ in_order *
        (dLegendre in_r in_order -
          ((in_eta * dLegendre in_r (in_order - 1) + dLegendre in_r (in_order + 1)) / (1 + in_eta)))
  else if in_mode = 1 then
    if in_order = 0 then
      0.5 * (dLegendre in_r in_order + (dLegendre in_r (in_order + 1) / (1 + in_eta)))
    else
      0.5 * (dLegendre in_r in_order +
        ((in_eta * dLegendre in_r (in_order - 1) + dLegendre in_r (in_order + 1)) / (1 + in_eta)))
  else 0

/-! ## Shared diagonal mode sweep (polynomials.cpp lines 161-173, 188-203,
289-303, 325-345, 371-396) -/

/-- The diagonal sweep of the square families (`Legendre2D_hierarchical`,
`exponential_filter`): `k` runs over `0 .. order*order`, within each diagonal
`j` runs over `0 .. k`, `i = k - j`, and the pair is emitted only when both
`i ≤ order` and `j ≤ order`. -/
def squareSweep (order : ℕ) : List (ℕ × ℕ) :=
  (List.range (order * order + 1)).flatMap fun k =>
    ((List.range (k + 1)).map fun j => (k - j, j)).filter fun ij =>
      decide (ij.1 ≤ order) && decide (ij.2 ≤ order)

/-- The diagonal sweep of the triangle (Dubiner) family: `k` runs over
`0 .. order`, within each diagonal `j` runs over `0 .. k`, `i = k - j`. -/
def triSweep (order : ℕ) : List (ℕ × ℕ) :=
  (List.range (order + 1)).flatMap fun k =>
    (List.range (k + 1)).map fun j => (k - j, j)

/-- The scan shared verbatim by all five mode-indexed evaluators: walk the
emitted `(i,j)` pairs with a counter starting at 0, replace the accumulator
(initialised to the function's default 0) by `g (i,j)` when the counter
equals `in_mode`, and increment the counter at every emission. -/
def sweepEval {α : Type} (l : List (ℕ × ℕ)) (g : ℕ × ℕ → α) (in_mode : ℤ) (init : α) : α :=
  (l.foldl (fun st ij => (if st.2 = in_mode then g ij else st.1, st.2 + 1)) (init, (0 : ℤ))).1

/-- `Legendre2D_hierarchical(in_mode, in_loc, in_basis_order)` (lines
153-176): fatal unless `in_mode < (order+1)²`; the sweep evaluates
`Legendre(x,i)·Legendre(y,j)` at the matching mode. -/
def Legendre2D_hierarchical (in_mode : ℤ) (in_loc : ℚ × ℚ) (in_basis_order : ℕ) :
    Except String ℚ :=
  let n_dof : ℤ := ((in_basis_order : ℤ) + 1) * ((in_basis_order : ℤ) + 1)
  if ¬(in_mode < n_dof) then FatalError "Invalid mode when evaluating Legendre basis."
  else
    Except.ok (sweepEval (squareSweep in_basis_order)
      (fun ij => Legendre in_loc.1 (ij.1 : ℤ) * Legendre in_loc.2 (ij.2 : ℤ)) in_mode 0)

/-- `exponential_filter(in_mode, inBasisOrder, exponent)` (lines 178-206):
fatal unless `in_mode < (order+1)²`; the matching mode yields
`exp(-(((i+j)/n_dof))^exponent)`. -/
noncomputable def exponential_filter (in_mode : ℤ) (inBasisOrder : ℕ) (exponent : ℝ) :
    Except String ℝ :=
  let n_dof : ℤ := ((inBasisOrder : ℤ) + 1) * ((inBasisOrder : ℤ) + 1)
  if ¬(in_mode < n_dof) then FatalError "Invalid mode when evaluating exponential filter."
  else
    Except.ok (sweepEval (squareSweep inBasisOrder)
      (fun ij => Real.exp (-1 * ((((ij.1 + ij.2 : ℕ) : ℝ) / (n_dof : ℝ)) ^ exponent)))
      in_mode 0)

/-! ## Jacobi family (polynomials.cpp lines 209-273) -/

/-- `eval_jacobi(in_r, in_alpha, in_beta, in_mode)` (lines 209-260): the
normalized Jacobi polynomial; modes 0 and 1 are closed forms built from
`eval_gamma`, higher modes use the source's rescaled three-term recursion
with its exact `dtemp` coefficient combinations. -/
noncomputable def eval_jacobi (in_r : ℝ) (in_alpha in_beta : ℤ) : ℕ → ℝ
  | 0 =>
      Real.sqrt ((2 : ℝ) ^ (-in_alpha - in_beta - 1) *
        ((eval_gamma (in_alpha + in_beta + 2) : ℝ) /
          ((eval_gamma (in_alpha + 1) : ℝ) * (eval_gamma (in_beta + 1) : ℝ))))
  | 1 =>
      0.5 * Real.sqrt ((2 : ℝ) ^ (-in_alpha - in_beta - 1) *
          ((eval_gamma (in_alpha + in_beta + 2) : ℝ) /
            ((eval_gamma (in_alpha + 1) : ℝ) * (eval_gamma (in_beta + 1) : ℝ)))) *
        Real.sqrt (((in_alpha + in_beta + 3 : ℤ) : ℝ) / (((in_alpha + 1) * (in_beta + 1) : ℤ) : ℝ)) *
        (in_r * ((in_alpha + in_beta + 2 : ℤ) : ℝ) + ((in_alpha - in_beta : ℤ) : ℝ))
  | m + 2 =>
      let n : ℤ := (m : ℤ) + 2
      let dtemp_0 : ℤ := n * (n + in_alpha + in_beta) * (n + in_alpha) * (n + in_beta)
      let dtemp_1 : ℤ := (2 * n + in_alpha + in_beta - 1) * (2 * n + in_alpha + in_beta + 1)
      let dtemp_3 : ℤ := 2 * n + in_alpha + in_beta
      let dtemp_4 : ℤ :=
        (n - 1) * ((n - 1) + in_alpha + in_beta) * ((n - 1) + in_alpha) * ((n - 1) + in_beta)
      let dtemp_5 : ℤ :=
        (2 * (n - 1) + in_alpha + in_beta - 1) * (2 * (n - 1) + in_alpha + in_beta + 1)
      let dtemp_6 : ℤ := 2 * (n - 1) + in_alpha + in_beta
      let dtemp_7 : ℤ := -(in_alpha * in_alpha - in_beta * in_beta)
      let dtemp_8 : ℤ := (2 * (n - 1) + in_alpha + in_beta) * (2 * (n - 1) + in_alpha + in_beta + 2)
      let dtemp_9 : ℝ := 2 / (dtemp_3 : ℝ) * Real.sqrt ((dtemp_0 : ℝ) / (dtemp_1 : ℝ))
      let dtemp_10 : ℝ := 2 / (dtemp_6 : ℝ) * Real.sqrt ((dtemp_4 : ℝ) / (dtemp_5 : ℝ))
      let dtemp_11 : ℝ := (dtemp_7 : ℝ) / (dtemp_8 : ℝ)
      let dtemp_12 : ℝ := in_r * eval_jacobi in_r in_alpha in_beta (m + 1)
      let dtemp_13 : ℝ := dtemp_10 * eval_jacobi in_r in_alpha in_beta m
      let dtemp_14 : ℝ := dtemp_11 * eval_jacobi in_r in_alpha in_beta (m + 1)
      1 / dtemp_9 * (dtemp_12 - dtemp_13 - dtemp_14)

/-- `eval_grad_jacobi(in_r, in_alpha, in_beta, in_mode)` (lines 262-273):
0 at mode 0, else `sqrt(mode·(mode+alpha+beta+1))` times the Jacobi
polynomial with both weights shifted up and the mode shifted down. -/
noncomputable def eval_grad_jacobi (in_r : ℝ) (in_alpha in_beta : ℤ) : ℕ → ℝ
  | 0 => 0
  | m + 1 =>
      Real.sqrt (((m + 1 : ℕ) : ℝ) * (((m + 1 : ℕ) : ℝ) + (in_alpha : ℝ) + (in_beta : ℝ) + 1)) *
        eval_jacobi in_r (in_alpha + 1) (in_beta + 1) m

/-! ## Dubiner triangular family (polynomials.cpp lines 275-404, 495-508) -/

/-- Modelled from the spec: the `point` value type (§3 Coordinate, a pair of
reals) is declared in a header not under src/; its default constructor
zero-initializes the components, which is what `point ab;` produces before
any field of `ab` is assigned. -/
def point_default : ℝ × ℝ := (0, 0)

/-- `rs_to_ab(rs)` (lines 495-508), transcribed exactly as written: the
`rs.x == 1` branch assigns `ab.x = -1`, the other branch writes the
collapsed-coordinate formula into `ab.y` (leaving `ab.x` at its
default-constructed value), and afterwards `ab.y = rs.y` unconditionally
overwrites the second component. -/
noncomputable def rs_to_ab (rs : ℝ × ℝ) : ℝ × ℝ :=
  let ab0 := point_default
  let ab1 : ℝ × ℝ :=
    if rs.1 = 1 then (-1, ab0.2)
    else (ab0.1, 2 * ((1 + rs.1) / (1 - rs.2)) - 1)
  (ab1.1, rs.2)

/-- `eval_dubiner_basis_2d(in_rs, in_mode, in_basis_order)` (lines 275-309):
fatal unless `in_mode < (order+1)(order+2)/2`; the matching mode yields
`sqrt(2)·jacobi(a,0,0,i)·jacobi(b,2i+1,0,j)·(1-b)^i` in collapsed
coordinates `(a,b) = rs_to_ab(r,s)`. -/
noncomputable def eval_dubiner_basis_2d (in_rs : ℝ × ℝ) (in_mode : ℤ) (in_basis_order : ℕ) :
    Except String ℝ :=
  let n_dof : ℕ := (in_basis_order + 1) * (in_basis_order + 2) / 2
  if in_mode < (n_dof : ℤ) then
    let ab := rs_to_ab in_rs
    Except.ok (sweepEval (triSweep in_basis_order)
      (fun ij =>
        Real.sqrt 2 * eval_jacobi ab.1 0 0 ij.1 *
          eval_jacobi ab.2 (2 * (ij.1 : ℤ) + 1) 0 ij.2 * (1 - ab.2) ^ ij.1)
      in_mode 0)
  else FatalError "Invalid mode when evaluating Dubiner basis."

/-- `eval_dr_dubiner_basis_2d(in_rs, in_mode, in_basis_order)` (lines
311-352): same sweep; the matching mode yields 0 when i = 0 (singularity
guard) and otherwise `2·sqrt(2)·dJacobi(a,0,0,i)·jacobi(b,2i+1,0,j)·(1-b)^(i-1)`. -/
noncomputable def eval_dr_dubiner_basis_2d (in_rs : ℝ × ℝ) (in_mode : ℤ) (in_basis_order : ℕ) :
    Except String ℝ :=
  let n_dof : ℕ := (in_basis_order + 1) * (in_basis_order + 2) / 2
  if in_mode < (n_dof : ℤ) then
    let ab := rs_to_ab in_rs
    Except.ok (sweepEval (triSweep in_basis_order)
      (fun ij =>
        if ij.1 = 0 then 0
        else 2 * Real.sqrt 2 * eval_grad_jacobi ab.1 0 0 ij.1 *
          eval_jacobi ab.2 (2 * (ij.1 : ℤ) + 1) 0 ij.2 * (1 - ab.2) ^ (ij.1 - 1))
      in_mode 0)
  else FatalError "Invalid mode when evaluating basis."

/-- `eval_ds_dubiner_basis_2d(in_rs, in_mode, in_basis_order)` (lines
356-404): same sweep; the matching mode combines the chain-rule terms
`jacobi_0 .. jacobi_4` of the source, special-casing i = 0 to drop the
singular `(1-b)^(i-1)` term. -/
noncomputable def eval_ds_dubiner_basis_2d (in_rs : ℝ × ℝ) (in_mode : ℤ) (in_basis_order : ℕ) :
    Except String ℝ :=
  let n_dof : ℕ := (in_basis_order + 1) * (in_basis_order + 2) / 2
  if in_mode < (n_dof : ℤ) then
    let ab := rs_to_ab in_rs
    Except.ok (sweepEval (triSweep in_basis_order)
      (fun ij =>
        let jacobi_0 := eval_grad_jacobi ab.1 0 0 ij.1
        let jacobi_1 := eval_jacobi ab.2 (2 * (ij.1 : ℤ) + 1) 0 ij.2
        let jacobi_2 := eval_jacobi ab.1 0 0 ij.1
        let jacobi_3 :=
          eval_grad_jacobi ab.2 (2 * (ij.1 : ℤ) + 1) 0 ij.2 * (1 - ab.2) ^ ij.1
        let jacobi_4 :=
          eval_jacobi ab.2 (2 * (ij.1 : ℤ) + 1) 0 ij.2 * (ij.1 : ℝ) *
            (1 - ab.2) ^ ((ij.1 : ℤ) - 1)
        if ij.1 = 0 then Real.sqrt 2 * (jacobi_2 * jacobi_3)
        else
          Real.sqrt 2 *
            (jacobi_0 * jacobi_1 * (1 - ab.2) ^ ((ij.1 : ℤ) - 1) * (1 + ab.1) +
              jacobi_2 * (jacobi_3 - jacobi_4)))
      in_mode 0)
  else FatalError "ERROR: Invalid mode when evaluating basis."

/-! ## Helper lemmas about the shared sweep scan -/

lemma sweepFold_const {α : Type} (g : ℕ × ℕ → α) (m : ℤ) :
    ∀ (l : List (ℕ × ℕ)) (a : α) (c : ℤ), m < c →
      (l.foldl (fun st ij => (if st.2 = m then g ij else st.1, st.2 + 1)) (a, c)).1 = a := by
  intro l
  induction l with
  | nil => intro a c _; rfl
  | cons ij tl ih =>
      intro a c hc
      simp only [List.foldl_cons]
      rw [if_neg (by omega : ¬c = m)]
      exact ih a (c + 1) (by omega)

lemma sweepEval_neg {α : Type} (l : List (ℕ × ℕ)) (g : ℕ × ℕ → α) (m : ℤ) (init : α)
    (h : m < 0) : sweepEval l g m init = init := by
  unfold sweepEval
  exact sweepFold_const g m l init 0 h

lemma sweepEval_head {α : Type} (ij : ℕ × ℕ) (tl : List (ℕ × ℕ)) (g : ℕ × ℕ → α) (init : α) :
    sweepEval (ij :: tl) g 0 init = g ij := by
  unfold sweepEval
  simp only [List.foldl_cons, if_true]
  exact sweepFold_const g 0 tl (g ij) (0 + 1) (by omega)

lemma triSweep_head (P : ℕ) : ∃ t, triSweep P = (0, 0) :: t := by
  unfold triSweep
  rw [List.range_succ_eq_map]
  refine ⟨((List.range P).map Nat.succ).flatMap fun k =>
    (List.range (k + 1)).map fun j => (k - j, j), ?_⟩
  rfl

/-! ## Helper lemmas: Legendre endpoint values -/

lemma legP_one_pair (n : ℕ) : legP 1 n = 1 ∧ legP 1 (n + 1) = 1 := by
  induction n with
  | zero => exact ⟨rfl, rfl⟩
  | succ n ih =>
      refine ⟨ih.2, ?_⟩
      have hne : ((n : ℚ) + 2) ≠ 0 := by positivity
      show legP 1 (n + 2) = 1
      rw [legP, ih.1, ih.2]
      field_simp
      ring

lemma legP_neg_one_pair (n : ℕ) :
    legP (-1) n = (-1) ^ n ∧ legP (-1) (n + 1) = (-1) ^ (n + 1) := by
  induction n with
  | zero => exact ⟨rfl, by simp [legP]⟩
  | succ n ih =>
      refine ⟨ih.2, ?_⟩
      have hne : ((n : ℚ) + 2) ≠ 0 := by positivity
      show legP (-1) (n + 2) = (-1) ^ (n + 2)
      rw [legP, ih.1, ih.2]
      field_simp
      ring

/-! ## Helper lemmas: eval_gamma as a factorial -/

lemma foldl_mul_eq (f : ℕ → ℤ) :
    ∀ (l : List ℕ) (a : ℤ), l.foldl (fun g i => g * f i) a = a * (l.map f).prod := by
  intro l
  induction l with
  | nil => intro a; simp
  | cons x tl ih =>
      intro a
      simp only [List.foldl_cons, List.map_cons, List.prod_cons, ih]
      ring

lemma range_descending_prod (m : ℕ) :
    ((List.range m).map fun i : ℕ => (m : ℤ) - (i : ℤ)).prod = (m.factorial : ℤ) := by
  induction m with
  | zero => simp
  | succ m ih =>
      rw [List.range_succ_eq_map, List.map_cons, List.map_map, List.prod_cons]
      have hmap : ((List.range m).map ((fun i : ℕ => ((m + 1 : ℕ) : ℤ) - (i : ℤ)) ∘ Nat.succ))
          = (List.range m).map fun i : ℕ => (m : ℤ) - (i : ℤ) := by
        apply List.map_congr_left
        intro i _
        simp only [Function.comp]
        push_cast
        ring
      rw [hmap, ih, Nat.factorial_succ]
      push_cast
      ring

/-! ## Helper lemmas: compute_eta branch analysis -/

lemma compute_eta_error_iff (s o : ℤ) :
    (∃ msg, compute_eta s o = Except.error msg) ↔
      (o = 0 ∧ s ≠ DG) ∨ (s = CPLUS ∧ ¬(o = 2 ∨ o = 3 ∨ o = 4 ∨ o = 5)) ∨
        (s ≠ DG ∧ s ≠ SD ∧ s ≠ HU ∧ s ≠ CPLUS) := by
  unfold compute_eta FatalError DG SD HU CPLUS
  split_ifs <;> simp_all [Except.map]

lemma compute_eta_DG_eq (o : ℤ) : compute_eta DG o = Except.ok 0 := by
  unfold compute_eta DG
  simp

lemma compute_eta_SD_eq (o : ℤ) (h : o ≠ 0) :
    compute_eta SD o = Except.ok ((o : ℚ) / ((o : ℚ) + 1)) := by
  unfold compute_eta SD DG
  simp [h]

lemma compute_eta_HU_eq (o : ℤ) (h : o ≠ 0) :
    compute_eta HU o = Except.ok (((o : ℚ) + 1) / (o : ℚ)) := by
  unfold compute_eta HU DG SD
  simp [h]

/-! ## Helper lemmas: distinct nodes -/

lemma pairwise_getD_ne (x : List ℚ) (hp : x.Pairwise (fun a b => a ≠ b)) {i j : ℕ}
    (hi : i < x.length) (hj : j < x.length) (hij : i ≠ j) : x.getD i 0 ≠ x.getD j 0 := by
  rw [List.getD_eq_getElem x 0 hi, List.getD_eq_getElem x 0 hj]
  have h := List.pairwise_iff_getElem.mp hp
  rcases Nat.lt_or_ge i j with hlt | hge
  · exact h i j hi hj hlt
  · exact (h j i hj hi (lt_of_le_of_ne hge (Ne.symm hij))).symm

/-! ## Helper lemmas: concrete gamma and Jacobi values -/

lemma eval_gamma_one : eval_gamma 1 = 1 := by decide

lemma eval_gamma_two : eval_gamma 2 = 1 := by decide

lemma eval_gamma_three : eval_gamma 3 = 2 := by decide

lemma eval_jacobi_mode0_a0 (x : ℝ) : eval_jacobi x 0 0 0 = Real.sqrt 2⁻¹ := by
  show Real.sqrt ((2 : ℝ) ^ (-(0 : ℤ) - 0 - 1) *
    ((eval_gamma (0 + 0 + 2) : ℝ) / ((eval_gamma (0 + 1) : ℝ) * (eval_gamma (0 + 1) : ℝ)))) =
    Real.sqrt 2⁻¹
  norm_num [eval_gamma_two, eval_gamma_one]

lemma eval_jacobi_mode0_a1 (x : ℝ) : eval_jacobi x 1 0 0 = Real.sqrt 2⁻¹ := by
  show Real.sqrt ((2 : ℝ) ^ (-(1 : ℤ) - 0 - 1) *
    ((eval_gamma (1 + 0 + 2) : ℝ) / ((eval_gamma (1 + 1) : ℝ) * (eval_gamma (0 + 1) : ℝ)))) =
    Real.sqrt 2⁻¹
  norm_num [eval_gamma_three, eval_gamma_two, eval_gamma_one]

/-- Shared evaluation of the Dubiner basis at mode 0: the first pair of the
triangle sweep is (0,0), whose Jacobi factors are the constants
`sqrt(1/2)`, so the basis value is `sqrt 2 * (1/2) = sqrt 2 / 2` at every
point and order. -/
lemma dubiner_mode0_eval (in_rs : ℝ × ℝ) (P : ℕ) :
    eval_dubiner_basis_2d in_rs 0 P = Except.ok (Real.sqrt 2 / 2) := by
  unfold eval_dubiner_basis_2d
  have hdof : (0 : ℤ) < (((P + 1) * (P + 2) / 2 : ℕ) : ℤ) := by
    have h2 : 1 * 2 ≤ (P + 1) * (P + 2) := Nat.mul_le_mul (by omega) (by omega)
    have : 1 ≤ (P + 1) * (P + 2) / 2 := (Nat.le_div_iff_mul_le (by omega)).mpr h2
    exact_mod_cast this
  rw [if_pos hdof]
  obtain ⟨t, ht⟩ := triSweep_head P
  rw [ht]
  dsimp only
  rw [sweepEval_head]
  have hs : Real.sqrt 2⁻¹ * Real.sqrt 2⁻¹ = 2⁻¹ :=
    Real.mul_self_sqrt (by norm_num)
  norm_num [eval_jacobi_mode0_a0, eval_jacobi_mode0_a1]
  have h2 : Real.sqrt 2 * Real.sqrt 2 = 2 := Real.mul_self_sqrt (by norm_num)
  have hpos : (0 : ℝ) < Real.sqrt 2 := Real.sqrt_pos.mpr (by norm_num)
  field_simp

/-! ## Claim theorems -/

/-- C6: for every n ≥ 0, `Legendre(1,n) = 1` and `Legendre(-1,n) = (-1)^n`;
for every r, `Legendre(r,0) = 1` and `Legendre(r,1) = r`; and for every
n < 0, `Legendre(r,n) = 0`. -/
theorem legendre_endpoint_values :
    (∀ n : ℤ, 0 ≤ n → Legendre 1 n = 1 ∧ Legendre (-1) n = (-1) ^ n) ∧
    (∀ r : ℚ, Legendre r 0 = 1 ∧ Legendre r 1 = r) ∧
    (∀ (r : ℚ) (n : ℤ), n < 0 → Legendre r n = 0) := by
  refine ⟨fun n hn => ?_, fun r => ?_, fun r n hn => ?_⟩
  · have h1 : Legendre 1 n = legP 1 n.toNat := by
      unfold Legendre
      rw [if_neg (by omega)]
    have h2 : Legendre (-1) n = legP (-1) n.toNat := by
      unfold Legendre
      rw [if_neg (by omega)]
    refine ⟨h1.trans (legP_one_pair n.toNat).1, ?_⟩
    rw [h2, (legP_neg_one_pair n.toNat).1]
    conv_rhs => rw [← Int.toNat_of_nonneg hn]
    rw [zpow_natCast]
  · constructor
    · unfold Legendre
      norm_num [legP]
    · unfold Legendre
      norm_num [legP]
  · unfold Legendre
    rw [if_pos hn]

/-- Witness for C6 at concrete inputs. -/
theorem legendre_endpoint_values_witness :
    Legendre 1 4 = 1 ∧ Legendre (-1) 3 = (-1 : ℚ) ^ (3 : ℤ) ∧ Legendre 7 0 = 1 ∧
      Legendre 7 1 = 7 ∧ Legendre 7 (-2) = 0 :=
  ⟨(legendre_endpoint_values.1 4 (by norm_num)).1,
   (legendre_endpoint_values.1 3 (by norm_num)).2,
   (legendre_endpoint_values.2.1 7).1,
   (legendre_endpoint_values.2.1 7).2,
   legendre_endpoint_values.2.2 7 (-2) (by norm_num)⟩

/-- C9: `eval_gamma` is total: `(n-1)!` for n ≥ 1 and `n-1` for n ≤ 0
(in particular `eval_gamma 0 = -1`), with no error and no divergence
(the Lean embedding is a terminating total function). -/
theorem eval_gamma_total_values :
    (∀ n : ℤ, 1 ≤ n → eval_gamma n = ((n - 1).toNat.factorial : ℤ)) ∧
    (∀ n : ℤ, n ≤ 0 → eval_gamma n = n - 1) := by
  constructor
  · intro n hn
    rcases eq_or_lt_of_le hn with h1 | h2
    · rw [← h1]
      decide
    · have hm : ((n - 2).toNat : ℤ) = n - 2 := Int.toNat_of_nonneg (by omega)
      unfold eval_gamma
      rw [if_neg (by omega)]
      rw [foldl_mul_eq (fun i : ℕ => n - 2 - (i : ℤ))]
      have hcong : (List.range (n - 2).toNat).map (fun i : ℕ => n - 2 - (i : ℤ))
          = (List.range (n - 2).toNat).map (fun i : ℕ => (((n - 2).toNat : ℕ) : ℤ) - (i : ℤ)) := by
        apply List.map_congr_left
        intro i _
        omega
      rw [hcong, range_descending_prod]
      have h3 : (n - 1).toNat = (n - 2).toNat + 1 := by omega
      rw [h3, Nat.factorial_succ]
      push_cast
      have h4 : (n : ℤ) - 1 = ((n - 2).toNat : ℤ) + 1 := by omega
      rw [h4]
  · intro n hn
    unfold eval_gamma
    rw [if_neg (by omega), show (n - 2).toNat = 0 by omega]
    simp

/-- Witness for C9 at concrete inputs. -/
theorem eval_gamma_total_values_witness :
    eval_gamma 5 = ((5 - 1 : ℤ).toNat.factorial : ℤ) ∧ eval_gamma 0 = 0 - 1 :=
  ⟨eval_gamma_total_values.1 5 (by norm_num), eval_gamma_total_values.2 0 (by norm_num)⟩

/-- C10: for every order n ≥ 1 and every r strictly outside [-1,1],
`dLegendre(r,n) = 0` (no branch of the source assigns a value there). -/
theorem dLegendre_outside_interval (n : ℤ) (r : ℚ) (hn : 1 ≤ n)
    (hr : r < -1 ∨ 1 < r) : dLegendre r n = 0 := by
  have hA : ¬(n = 0) := by omega
  have hB : ¬(-1 < r ∧ r < 1) := by
    rintro ⟨hx, hy⟩
    rcases hr with h | h <;> linarith
  have hC : ¬(r = -1) := by
    intro he
    subst he
    rcases hr with h | h <;> linarith
  have hD : ¬(r = 1) := by
    intro he
    subst he
    rcases hr with h | h <;> linarith
  unfold dLegendre
  rw [if_neg hA, if_neg hB, if_neg hC, if_neg hD]

/-- Witness for C10 at a concrete input. -/
theorem dLegendre_outside_interval_witness : dLegendre 2 1 = 0 :=
  dLegendre_outside_interval 1 2 (by norm_num) (Or.inr (by norm_num))

/-- C7: for pairwise-distinct nodes and an in-range mode m, the m-th
Lagrange basis polynomial is 1 at node m and 0 at every other node. -/
theorem lagrange_delta_property (x_lag : List ℚ) (m : ℕ)
    (hp : x_lag.Pairwise (fun a b => a ≠ b)) (hm : m < x_lag.length) :
    Lagrange x_lag (x_lag.getD m 0) m = 1 ∧
      ∀ k, k < x_lag.length → k ≠ m → Lagrange x_lag (x_lag.getD k 0) m = 0 := by
  constructor
  · unfold Lagrange
    apply Finset.prod_eq_one
    intro i hi
    by_cases him : i = m
    · rw [if_neg (not_not_intro him)]
    · rw [if_pos him]
      exact div_self
        (sub_ne_zero.mpr (pairwise_getD_ne x_lag hp hm (Finset.mem_range.mp hi) (Ne.symm him)))
  · intro k hk hkm
    unfold Lagrange
    apply Finset.prod_eq_zero (Finset.mem_range.mpr hk)
    rw [if_pos hkm, sub_self, zero_div]

/-- Witness for C7 on the node set [0, 1]. -/
theorem lagrange_delta_property_witness :
    Lagrange [0, 1] (([0, 1] : List ℚ).getD 0 0) 0 = 1 ∧
      Lagrange [0, 1] (([0, 1] : List ℚ).getD 1 0) 0 = 0 := by
  have h := lagrange_delta_property [0, 1] 0 (by norm_num [List.pairwise_cons]) (by norm_num)
  exact ⟨h.1, h.2 1 (by norm_num) (by norm_num)⟩

/-- C5: `compute_eta` errors exactly for (order 0 with a non-DG scheme), or
(CPlus outside orders 2-5), or an unknown scheme tag; otherwise DG yields 0
at every order, SD yields order/(order+1) and HU yields (order+1)/order. -/
theorem compute_eta_scheme_values (s o : ℤ) :
    ((∃ msg, compute_eta s o = Except.error msg) ↔
      (o = 0 ∧ s ≠ DG) ∨ (s = CPLUS ∧ ¬(o = 2 ∨ o = 3 ∨ o = 4 ∨ o = 5)) ∨
        (s ≠ DG ∧ s ≠ SD ∧ s ≠ HU ∧ s ≠ CPLUS)) ∧
    compute_eta DG o = Except.ok 0 ∧
    (o ≠ 0 → compute_eta SD o = Except.ok ((o : ℚ) / ((o : ℚ) + 1))) ∧
    (o ≠ 0 → compute_eta HU o = Except.ok (((o : ℚ) + 1) / (o : ℚ))) :=
  ⟨compute_eta_error_iff s o, compute_eta_DG_eq o, compute_eta_SD_eq o, compute_eta_HU_eq o⟩

/-- Witness for C5 at concrete scheme/order pairs. -/
theorem compute_eta_scheme_values_witness :
    (∃ msg, compute_eta SD 0 = Except.error msg) ∧
      compute_eta DG 5 = Except.ok 0 ∧
      compute_eta SD 3 = Except.ok ((3 : ℚ) / ((3 : ℚ) + 1)) ∧
      compute_eta HU 2 = Except.ok (((2 : ℚ) + 1) / (2 : ℚ)) :=
  ⟨(compute_eta_scheme_values SD 0).1.mpr (Or.inl ⟨rfl, by norm_num [SD, DG]⟩),
   (compute_eta_scheme_values DG 5).2.1,
   (compute_eta_scheme_values SD 3).2.2.1 (by norm_num),
   (compute_eta_scheme_values HU 2).2.2.2 (by norm_num)⟩

/-- C1 (code bug): at the SD scheme's own eta (`compute_eta(SD,1) = 1/2`),
the right correction function evaluated at its own endpoint xi = 1 returns
5/6, not the 1 required by the claimed boundary behaviour: the mode 1
branch of `VCJH_1d` divides the entire bracket (including
`Legendre(xi,order)`) by (1+eta), unlike the mode 0 branch and unlike
`dVCJH_1d`, which divide only the blended term. -/
theorem vcjh_right_endpoint_mismatch :
    compute_eta SD 1 = Except.ok (1 / 2) ∧ VCJH_1d 1 1 1 (1 / 2) = 5 / 6 ∧
      (5 / 6 : ℚ) ≠ 1 := by
  refine ⟨?_, ?_, by norm_num⟩
  · rw [compute_eta_SD_eq 1 (by decide)]
    norm_num
  · norm_num [VCJH_1d, Legendre, legP]

/-- C2 (code bug): `rs_to_ab` at the interior point (r,s) = (0,0) returns
a = 0 — the non-apex branch writes the collapsed-coordinate formula into
`ab.y` (which is then overwritten by `ab.y = rs.y`) and never assigns
`ab.x` — whereas the claimed transform a = 2(1+r)/(1-s) - 1 equals 1
there. -/
theorem rs_to_ab_apex_branch_mismatch :
    rs_to_ab (0, 0) = (0, 0) ∧ 2 * ((1 + (0 : ℝ)) / (1 - (0 : ℝ))) - 1 = 1 := by
  constructor
  · unfold rs_to_ab point_default
    norm_num
  · norm_num

/-- C4 (code bug): at order 1 the square diagonal sweep emits only 3 pairs
(k stops at order² = 1 instead of 2·order = 2), not the (1+1)² = 4 the
invariant requires, and mode 3 — accepted by the `mode < n_dof` guard —
silently evaluates to 0 in `Legendre2D_hierarchical`. -/
theorem square_sweep_undercount :
    (squareSweep 1).length = 3 ∧ ¬((squareSweep 1).length = (1 + 1) ^ 2) ∧
      Legendre2D_hierarchical 3 (1, 1) 1 = Except.ok 0 := by
  refine ⟨by rfl, by decide, by rfl⟩

/-- C8: every negative mode passes the `mode < n_dof` guard of all five
mode-indexed evaluators (so no invalid-mode fatal error is signalled), and
the sweep counter, which starts at 0, never matches it, so each function
returns its never-assigned accumulator 0. -/
theorem negative_mode_returns_zero (m : ℤ) (hm : m < 0) (P : ℕ) (r s expo : ℝ) (x y : ℚ) :
    eval_dubiner_basis_2d (r, s) m P = Except.ok 0 ∧
    eval_dr_dubiner_basis_2d (r, s) m P = Except.ok 0 ∧
    eval_ds_dubiner_basis_2d (r, s) m P = Except.ok 0 ∧
    Legendre2D_hierarchical m (x, y) P = Except.ok 0 ∧
    exponential_filter m P expo = Except.ok 0 := by
  have htri : m < (((P + 1) * (P + 2) / 2 : ℕ) : ℤ) :=
    lt_of_lt_of_le hm (Int.natCast_nonneg _)
  have hsq : m < ((P : ℤ) + 1) * ((P : ℤ) + 1) := by
    have h0 : (0 : ℤ) ≤ ((P : ℤ) + 1) * ((P : ℤ) + 1) := by positivity
    omega
  refine ⟨?_, ?_, ?_, ?_, ?_⟩
  · unfold eval_dubiner_basis_2d
    rw [if_pos htri]
    dsimp only
    rw [sweepEval_neg _ _ _ _ hm]
  · unfold eval_dr_dubiner_basis_2d
    rw [if_pos htri]
    dsimp only
    rw [sweepEval_neg _ _ _ _ hm]
  · unfold eval_ds_dubiner_basis_2d
    rw [if_pos htri]
    dsimp only
    rw [sweepEval_neg _ _ _ _ hm]
  · unfold Legendre2D_hierarchical
    rw [if_neg (not_not_intro hsq)]
    rw [sweepEval_neg _ _ _ _ hm]
  · unfold exponential_filter
    rw [if_neg (not_not_intro hsq)]
    rw [sweepEval_neg _ _ _ _ hm]

/-- Witness for C8 at mode -1, order 0. -/
theorem negative_mode_returns_zero_witness :
    eval_dubiner_basis_2d (0, 0) (-1) 0 = Except.ok 0 ∧
    eval_dr_dubiner_basis_2d (0, 0) (-1) 0 = Except.ok 0 ∧
    eval_ds_dubiner_basis_2d (0, 0) (-1) 0 = Except.ok 0 ∧
    Legendre2D_hierarchical (-1) (0, 0) 0 = Except.ok 0 ∧
    exponential_filter (-1) 0 1 = Except.ok 0 :=
  negative_mode_returns_zero (-1) (by norm_num) 0 0 0 1 0 0

/-- C3 counterexample: at the reference-triangle point (0,0) with order 0,
mode 0 of the Dubiner basis does not evaluate to sqrt 2 (it evaluates to
sqrt 2 / 2). -/
theorem dubiner_mode0_counterexample :
    eval_dubiner_basis_2d (0, 0) 0 0 ≠ Except.ok (Real.sqrt 2) := by
  rw [dubiner_mode0_eval]
  intro h
  have h1 : Real.sqrt 2 / 2 = Real.sqrt 2 := by
    simpa using h
  have hpos : (0 : ℝ) < Real.sqrt 2 := Real.sqrt_pos.mpr (by norm_num)
  linarith

/-- C3 (amended): for every order and every point (r,s) of the reference
triangle, mode 0 of the Dubiner basis is the constant sqrt(2)/2 (= 1/sqrt 2),
independent of (r,s). -/
theorem dubiner_mode0_is_constant (P : ℕ) (r s : ℝ)
    (_h1 : -1 ≤ r) (_h2 : -1 ≤ s) (_h3 : r + s ≤ 0) :
    eval_dubiner_basis_2d (r, s) 0 P = Except.ok (Real.sqrt 2 / 2) :=
  dubiner_mode0_eval (r, s) P

/-- Witness for C3 at order 1 and the triangle vertex (-1, 0). -/
theorem dubiner_mode0_is_constant_witness :
    eval_dubiner_basis_2d (-1, 0) 0 1 = Except.ok (Real.sqrt 2 / 2) :=
  dubiner_mode0_is_constant 1 (-1) 0 (by norm_num) (by norm_num) (by norm_num)
